import Mathlib

/-!
Verification development for the conditional-requirements resolution model of
the pixi-build-backends repository. The definitions below are shallow
embeddings of the Rust source:

* crates/pixi-build-backend/src/traits/targets.rs (target resolution and
  dependency aggregation),
* crates/pixi-build-backend/src/build_types_ext.rs (variant eligibility),
* crates/pixi-build-backend/src/dependencies.rs (variant substitution and
  pin resolution),
* crates/recipe-stage0/src/recipe.rs (intermediate recipe, conditional
  lists, YAML-shaped serialization).

Rust insertion-order maps (IndexMap) are modelled as association lists in
iteration order; hash maps are modelled the same way, their iteration order
abstracted as the list order. Fallible Rust code (panics, unwraps,
Result-returning functions) is modelled with Option and Except. External
parsers (rattler MatchSpec parsing) are taken as explicit function
parameters because their implementation lives outside this repository.
-/

namespace PixiBuild

/-! ### Platform model

Shallow model of rattler_conda_types Platform as used by the repository:
a finite set of concrete platforms together with the classification
predicates is_linux, is_osx, is_windows, is_unix and the canonical
string rendering. -/

inductive Platform where
  | linux64
  | linuxAarch64
  | osx64
  | osxArm64
  | win64
  | winArm64
  | noarch
deriving DecidableEq, Repr

def Platform.toStr : Platform → String
  | .linux64 => "linux-64"
  | .linuxAarch64 => "linux-aarch64"
  | .osx64 => "osx-64"
  | .osxArm64 => "osx-arm64"
  | .win64 => "win-64"
  | .winArm64 => "win-arm64"
  | .noarch => "noarch"

def Platform.isLinux : Platform → Bool
  | .linux64 => true
  | .linuxAarch64 => true
  | _ => false

def Platform.isOsx : Platform → Bool
  | .osx64 => true
  | .osxArm64 => true
  | _ => false

def Platform.isWindows : Platform → Bool
  | .win64 => true
  | .winArm64 => true
  | _ => false

def Platform.isUnix (p : Platform) : Bool :=
  p.isLinux || p.isOsx

/-! ### Project-model data types (pixi_build_types, as used from this repo)

BinaryPackageSpecV1 carries the eight constraint fields that
can_be_used_as_variant in build_types_ext.rs destructures. VersionSpec is
modelled as the match-anything constructor plus an opaque constructor for
every other version constraint. -/

inductive VersionSpec where
  | any
  | other (s : String)
deriving DecidableEq, Repr

structure BinaryPackageSpecV1 where
  version : Option VersionSpec
  build : Option String
  build_number : Option String
  file_name : Option String
  channel : Option String
  subdir : Option String
  md5 : Option String
  sha256 : Option String
deriving DecidableEq, Repr

inductive SourcePackageSpecV1 where
  | path (p : String)
  | url (u : String)
  | git (g : String)
deriving DecidableEq, Repr

inductive PackageSpecV1 where
  | binary (s : BinaryPackageSpecV1)
  | source (s : SourcePackageSpecV1)
deriving DecidableEq, Repr

structure TargetV1 where
  build_dependencies : Option (List (String × PackageSpecV1))
  host_dependencies : Option (List (String × PackageSpecV1))
  run_dependencies : Option (List (String × PackageSpecV1))
deriving DecidableEq, Repr

inductive TargetSelectorV1 where
  | platform (p : String)
  | linux
  | unix
  | win
  | macOs
deriving DecidableEq, Repr

structure TargetsV1 where
  default_target : Option TargetV1
  targets : Option (List (TargetSelectorV1 × TargetV1))
deriving DecidableEq, Repr

/-- Selector matching, from impl TargetSelector for TargetSelectorV1 in
traits/targets.rs lines 125 to 135. -/
def TargetSelectorV1.matches : TargetSelectorV1 → Platform → Bool
  | .platform p, plat => p = plat.toStr
  | .linux, plat => plat.isLinux
  | .unix, plat => plat.isUnix
  | .win, plat => plat.isWindows
  | .macOs, plat => plat.isOsx

/-- The iterator self.targets.iter().flatten() over the optional map of
selector-bound targets. -/
def TargetsV1.targetsList (t : TargetsV1) : List (TargetSelectorV1 × TargetV1) :=
  t.targets.getD []

/-- Target resolution, from Targets::resolve in traits/targets.rs lines 105
to 121: for a known platform, the default target chained with the
selector-bound targets filtered by selector matching; for no platform, only
the default target. -/
def TargetsV1.resolve (t : TargetsV1) (platform : Option Platform) : List TargetV1 :=
  match platform with
  | some p =>
      t.default_target.toList ++
        t.targetsList.filterMap (fun st => if st.1.matches p then some st.2 else none)
  | none => t.default_target.toList

/-! ### Insertion-order map semantics (IndexMap)

collect into an IndexMap inserts pair after pair; insert on an existing key
updates the value in place keeping the position of the key, and appends
otherwise. -/

def indexMapInsert {α : Type} (m : List (String × α)) (k : String) (v : α) :
    List (String × α) :=
  if m.any (fun kv => kv.1 = k) then
    m.map (fun kv => if kv.1 = k then (kv.1, v) else kv)
  else
    m ++ [(k, v)]

def indexMapOfList {α : Type} (l : List (String × α)) : List (String × α) :=
  l.foldl (fun m kv => indexMapInsert m kv.1 kv.2) []

/-- Lookup of the first entry with the given key in an association list. -/
def imLookup {α : Type} : List (String × α) → String → Option α
  | [], _ => none
  | kv :: rest, k => if kv.1 = k then some kv.2 else imLookup rest k

/-- Lookup of the last entry with the given key in an association list. -/
def imLookupLast {α : Type} : List (String × α) → String → Option α
  | [], _ => none
  | kv :: rest, k =>
    match imLookupLast rest k with
    | some v => some v
    | none => if kv.1 = k then some kv.2 else none

/-- The keys of a list of entries in first-seen order, starting from an
already emitted list of keys. -/
def firstSeenFrom (seen : List String) : List String → List String
  | [] => seen
  | k :: rest => firstSeenFrom (if k ∈ seen then seen else seen ++ [k]) rest

def firstSeen (l : List String) : List String :=
  firstSeenFrom [] l

/-- The build dependency entries of a single target:
t.build_dependencies.iter().flatten(). -/
def TargetV1.buildDeps (t : TargetV1) : List (String × PackageSpecV1) :=
  t.build_dependencies.getD []

def TargetV1.hostDeps (t : TargetV1) : List (String × PackageSpecV1) :=
  t.host_dependencies.getD []

def TargetV1.runDeps (t : TargetV1) : List (String × PackageSpecV1) :=
  t.run_dependencies.getD []

/-- Aggregated build dependencies, from TargetsV1::build_dependencies in
traits/targets.rs lines 181 to 192: resolve the targets for the platform,
flat-map each resolved target into its build dependency entries and collect
the entries into an insertion-order map. -/
def TargetsV1.build_dependencies (t : TargetsV1) (platform : Option Platform) :
    List (String × PackageSpecV1) :=
  indexMapOfList (((t.resolve platform).map TargetV1.buildDeps).flatten)

/-- Aggregated host dependencies, traits/targets.rs lines 168 to 179. -/
def TargetsV1.host_dependencies (t : TargetsV1) (platform : Option Platform) :
    List (String × PackageSpecV1) :=
  indexMapOfList (((t.resolve platform).map TargetV1.hostDeps).flatten)

/-- Aggregated run dependencies, traits/targets.rs lines 155 to 166. -/
def TargetsV1.run_dependencies (t : TargetsV1) (platform : Option Platform) :
    List (String × PackageSpecV1) :=
  indexMapOfList (((t.resolve platform).map TargetV1.runDeps).flatten)

/-! ### Helper lemmas about insertion-order maps -/

def optOr {α : Type} : Option α → Option α → Option α
  | some a, _ => some a
  | none, b => b

theorem optOr_none {α : Type} (x : Option α) : optOr x none = x := by
  cases x <;> rfl

theorem imLookup_map_update {α : Type} (m : List (String × α)) (k k2 : String) (v : α)
    (h : k2 ≠ k) :
    imLookup (m.map (fun kv => if kv.1 = k then (kv.1, v) else kv)) k2 = imLookup m k2 := by
  have hkk2 : ¬(k = k2) := Ne.symm h
  induction m with
  | nil => rfl
  | cons kv rest ih =>
      by_cases hk : kv.1 = k
      · simp [imLookup, hk, hkk2, ih]
      · by_cases hk2 : kv.1 = k2
        · simp [imLookup, hk, hk2, h]
        · simp [imLookup, hk, hk2, ih]

theorem imLookup_append_single_ne {α : Type} (m : List (String × α)) (k k2 : String) (v : α)
    (h : k2 ≠ k) :
    imLookup (m ++ [(k, v)]) k2 = imLookup m k2 := by
  have hkk2 : ¬(k = k2) := Ne.symm h
  induction m with
  | nil => simp [imLookup, hkk2]
  | cons kv rest ih =>
      by_cases hk2 : kv.1 = k2
      · simp [imLookup, hk2]
      · simp [imLookup, hk2, ih]

theorem imLookup_map_update_self {α : Type} (m : List (String × α)) (k : String) (v : α)
    (h : m.any (fun kv => kv.1 = k) = true) :
    imLookup (m.map (fun kv => if kv.1 = k then (kv.1, v) else kv)) k = some v := by
  induction m with
  | nil => simp at h
  | cons kv rest ih =>
      by_cases hk : kv.1 = k
      · simp [imLookup, hk]
      · have hrest : rest.any (fun kv => kv.1 = k) = true := by
          simp [List.any_cons, hk] at h
          simpa using h
        simp [imLookup, hk, ih hrest]

theorem imLookup_append_single_self {α : Type} (m : List (String × α)) (k : String) (v : α)
    (h : m.any (fun kv => kv.1 = k) = false) :
    imLookup (m ++ [(k, v)]) k = some v := by
  induction m with
  | nil => simp [imLookup]
  | cons kv rest ih =>
      have hk : ¬(kv.1 = k) := by
        intro hc
        simp [List.any_cons, hc] at h
      have hrest : rest.any (fun kv => kv.1 = k) = false := by
        simp [List.any_cons, hk] at h
        simpa using h
      simp [imLookup, hk, ih hrest]

theorem imLookup_insert_self {α : Type} (m : List (String × α)) (k : String) (v : α) :
    imLookup (indexMapInsert m k v) k = some v := by
  by_cases hany : m.any (fun kv => kv.1 = k)
  · unfold indexMapInsert
    rw [if_pos hany]
    exact imLookup_map_update_self m k v hany
  · have hfalse : m.any (fun kv => kv.1 = k) = false := Bool.eq_false_iff.mpr hany
    unfold indexMapInsert
    rw [if_neg hany]
    exact imLookup_append_single_self m k v hfalse

theorem imLookup_insert_ne {α : Type} (m : List (String × α)) (k k2 : String) (v : α)
    (h : k2 ≠ k) :
    imLookup (indexMapInsert m k v) k2 = imLookup m k2 := by
  by_cases hany : m.any (fun kv => kv.1 = k)
  · unfold indexMapInsert
    rw [if_pos hany]
    exact imLookup_map_update m k k2 v h
  · unfold indexMapInsert
    rw [if_neg hany]
    exact imLookup_append_single_ne m k k2 v h

theorem keys_map_update {α : Type} (m : List (String × α)) (k : String) (v : α) :
    (m.map (fun kv => if kv.1 = k then (kv.1, v) else kv)).map Prod.fst = m.map Prod.fst := by
  induction m with
  | nil => rfl
  | cons kv rest ih =>
      by_cases hk : kv.1 = k <;> simp [hk, ih]

theorem any_key_eq_mem {α : Type} (m : List (String × α)) (k : String) :
    m.any (fun kv => kv.1 = k) = true ↔ k ∈ m.map Prod.fst := by
  simp [List.any_eq_true, List.mem_map]

theorem keys_insert {α : Type} (m : List (String × α)) (k : String) (v : α) :
    (indexMapInsert m k v).map Prod.fst =
      if k ∈ m.map Prod.fst then m.map Prod.fst else m.map Prod.fst ++ [k] := by
  by_cases hany : m.any (fun kv => kv.1 = k)
  · have hmem : k ∈ m.map Prod.fst := (any_key_eq_mem m k).mp hany
    simp only [indexMapInsert, hany, if_true, hmem]
    exact keys_map_update m k v
  · have hmem : k ∉ m.map Prod.fst := fun hc => hany ((any_key_eq_mem m k).mpr hc)
    simp [indexMapInsert, hany, hmem]

theorem foldl_insert_lookup {α : Type} (l : List (String × α)) :
    ∀ (m : List (String × α)) (k : String),
      imLookup (l.foldl (fun m kv => indexMapInsert m kv.1 kv.2) m) k =
        optOr (imLookupLast l k) (imLookup m k) := by
  induction l with
  | nil => intro m k; rfl
  | cons kv rest ih =>
      intro m k
      rw [List.foldl_cons, ih]
      by_cases hk : kv.1 = k
      · subst hk
        cases hl : imLookupLast rest kv.1 with
        | none => simp [imLookupLast, hl, optOr, imLookup_insert_self]
        | some v => simp [imLookupLast, hl, optOr]
      · cases hl : imLookupLast rest k with
        | none =>
            have hne := imLookup_insert_ne m kv.1 k kv.2 (Ne.symm hk)
            simp [imLookupLast, hl, hk, optOr, hne]
        | some v => simp [imLookupLast, hl, optOr]

theorem foldl_insert_keys {α : Type} (l : List (String × α)) :
    ∀ (m : List (String × α)),
      (l.foldl (fun m kv => indexMapInsert m kv.1 kv.2) m).map Prod.fst =
        firstSeenFrom (m.map Prod.fst) (l.map Prod.fst) := by
  induction l with
  | nil => intro m; rfl
  | cons kv rest ih =>
      intro m
      rw [List.foldl_cons, ih, keys_insert]
      rfl

theorem indexMapOfList_lookup {α : Type} (l : List (String × α)) (k : String) :
    imLookup (indexMapOfList l) k = imLookupLast l k := by
  rw [indexMapOfList, foldl_insert_lookup]
  exact optOr_none _

theorem indexMapOfList_keys {α : Type} (l : List (String × α)) :
    (indexMapOfList l).map Prod.fst = firstSeen (l.map Prod.fst) := by
  rw [indexMapOfList, foldl_insert_keys]
  rfl

/-! ### Claim theorems about target resolution and aggregation -/

theorem filterMap_if_eq_map_filter {α β : Type} (c : α → Bool) (f : α → β) (l : List α) :
    l.filterMap (fun x => if c x then some (f x) else none) = (l.filter c).map f := by
  induction l with
  | nil => rfl
  | cons h t ih =>
      by_cases hc : c h
      · simp [List.filterMap_cons, List.filter_cons, hc, ih]
      · simp [List.filterMap_cons, List.filter_cons, hc, ih]

/-- C2: for a concrete platform, resolving targets returns the default target
(when present) followed by exactly the selector-bound targets whose selector
matches the platform, in the map iteration order; for no platform, only the
default target is returned. -/
theorem targets_resolve_order (t : TargetsV1) (p : Platform) :
    (t.resolve (some p) =
      t.default_target.toList ++
        (t.targetsList.filter (fun st => st.1.matches p)).map Prod.snd)
    ∧ t.resolve none = t.default_target.toList := by
  constructor
  · rw [TargetsV1.resolve]
    rw [filterMap_if_eq_map_filter (fun st => st.1.matches p) Prod.snd t.targetsList]
  · rfl

/-- A target declaring a single build dependency on the package "foo". -/
def fooTarget (spec : PackageSpecV1) : TargetV1 :=
  ⟨some [("foo", spec)], none, none⟩

/-- C3: aggregating the build, host and run dependency maps over the
resolved target sequence is last-write-wins (looking up any name in the
aggregated map gives the last entry for that name in the flattened target
sequence) and order-preserving (the aggregated keys are the flattened keys
in first-seen order); in particular a default target A overridden by a
matching selector target B yields the spec of B for the shared name "foo",
and swapping A and B yields the spec of A. -/
theorem build_dependencies_last_write_wins :
    (∀ (t : TargetsV1) (platform : Option Platform) (k : String),
      imLookup (t.build_dependencies platform) k =
        imLookupLast (((t.resolve platform).map TargetV1.buildDeps).flatten) k)
    ∧ (∀ (t : TargetsV1) (platform : Option Platform),
      (t.build_dependencies platform).map Prod.fst =
        firstSeen ((((t.resolve platform).map TargetV1.buildDeps).flatten).map Prod.fst))
    ∧ (∀ (t : TargetsV1) (platform : Option Platform) (k : String),
      imLookup (t.host_dependencies platform) k =
        imLookupLast (((t.resolve platform).map TargetV1.hostDeps).flatten) k)
    ∧ (∀ (t : TargetsV1) (platform : Option Platform),
      (t.host_dependencies platform).map Prod.fst =
        firstSeen ((((t.resolve platform).map TargetV1.hostDeps).flatten).map Prod.fst))
    ∧ (∀ (t : TargetsV1) (platform : Option Platform) (k : String),
      imLookup (t.run_dependencies platform) k =
        imLookupLast (((t.resolve platform).map TargetV1.runDeps).flatten) k)
    ∧ (∀ (t : TargetsV1) (platform : Option Platform),
      (t.run_dependencies platform).map Prod.fst =
        firstSeen ((((t.resolve platform).map TargetV1.runDeps).flatten).map Prod.fst))
    ∧ (∀ (specA specB : PackageSpecV1) (p : Platform),
      TargetsV1.build_dependencies
          ⟨some (fooTarget specA), some [(TargetSelectorV1.platform p.toStr, fooTarget specB)]⟩
          (some p) = [("foo", specB)]
      ∧ TargetsV1.build_dependencies
          ⟨some (fooTarget specB), some [(TargetSelectorV1.platform p.toStr, fooTarget specA)]⟩
          (some p) = [("foo", specA)]) := by
  refine ⟨fun t platform k => ?_, fun t platform => ?_, fun t platform k => ?_,
    fun t platform => ?_, fun t platform k => ?_, fun t platform => ?_,
    fun specA specB p => ?_⟩
  · rw [TargetsV1.build_dependencies, indexMapOfList_lookup]
  · rw [TargetsV1.build_dependencies, indexMapOfList_keys]
  · rw [TargetsV1.host_dependencies, indexMapOfList_lookup]
  · rw [TargetsV1.host_dependencies, indexMapOfList_keys]
  · rw [TargetsV1.run_dependencies, indexMapOfList_lookup]
  · rw [TargetsV1.run_dependencies, indexMapOfList_keys]
  · constructor
    · simp [TargetsV1.build_dependencies, TargetsV1.resolve, TargetsV1.targetsList,
        TargetSelectorV1.matches, fooTarget, TargetV1.buildDeps,
        indexMapOfList, indexMapInsert, List.foldl_cons]
    · simp [TargetsV1.build_dependencies, TargetsV1.resolve, TargetsV1.targetsList,
        TargetSelectorV1.matches, fooTarget, TargetV1.buildDeps,
        indexMapOfList, indexMapInsert, List.foldl_cons]

/-! ### Variant eligibility (build_types_ext.rs) -/

/-- The fully unconstrained binary spec: version matches anything, every
other field unset. -/
def anyBinarySpec : BinaryPackageSpecV1 :=
  { version := some VersionSpec.any, build := none, build_number := none,
    file_name := none, channel := none, subdir := none, md5 := none, sha256 := none }

/-- Variant eligibility, from PackageSpecExt::can_be_used_as_variant for
PackageSpecV1 in build_types_ext.rs lines 192 to 218: a binary spec whose
version equals the match-anything version spec and whose remaining fields
are all unset; every source spec is ineligible. -/
def can_be_used_as_variant : PackageSpecV1 → Bool
  | .binary s =>
      decide (s.version = some VersionSpec.any) && s.build.isNone && s.build_number.isNone &&
        s.file_name.isNone && s.channel.isNone && s.subdir.isNone && s.md5.isNone &&
        s.sha256.isNone
  | .source _ => false

/-- C4: can_be_used_as_variant holds exactly for the binary spec whose
version is the match-anything spec and whose build, build_number,
file_name, channel, subdir, md5 and sha256 fields are all unset; any other
spec, in particular any spec with one of those fields set or any source
spec, is rejected. -/
theorem can_be_used_as_variant_iff (spec : PackageSpecV1) :
    can_be_used_as_variant spec = true ↔ spec = PackageSpecV1.binary anyBinarySpec := by
  cases spec with
  | binary s =>
      cases s with
      | mk v b bn fn ch sd m5 s2 =>
          simp [can_be_used_as_variant, anyBinarySpec, Option.isNone_iff_eq_none, and_assoc]
  | source s => simp [can_be_used_as_variant]

/-! ### Variant substitution and pin resolution (dependencies.rs)

MatchSpec and NamelessMatchSpec are shallow models of the rattler types as
destructured and rebuilt by dependencies.rs; version constraints, hashes
and similar payloads are modelled as opaque strings, and the namespace
field is called nspace because namespace is a Lean keyword. Parsing of
version expressions is external to the repository and is taken as an
explicit function parameter; parse errors and pin errors are modelled as
strings. -/

structure MatchSpec where
  name : Option String
  version : Option VersionSpec
  build : Option String
  build_number : Option String
  file_name : Option String
  extras : Option String
  channel : Option String
  subdir : Option String
  nspace : Option String
  md5 : Option String
  sha256 : Option String
  license : Option String
  url : Option String
deriving DecidableEq, Repr

structure NamelessMatchSpec where
  version : Option VersionSpec
  build : Option String
  build_number : Option String
  file_name : Option String
  channel : Option String
  subdir : Option String
  md5 : Option String
  sha256 : Option String
deriving DecidableEq, Repr

/-- From convert_nameless_matchspec in dependencies.rs lines 159 to 172,
restricted to the constraint fields shared by the two spec types. -/
def convert_nameless_matchspec (spec : NamelessMatchSpec) : BinaryPackageSpecV1 :=
  { version := spec.version, build := spec.build, build_number := spec.build_number,
    file_name := spec.file_name, channel := spec.channel, subdir := spec.subdir,
    md5 := spec.md5, sha256 := spec.sha256 }

/-- From can_apply_variant in dependencies.rs lines 177 to 196: a variant
applies only to a match spec with a name and every other field unset. -/
def can_apply_variant (spec : MatchSpec) : Option String :=
  match spec with
  | ⟨some name, none, none, none, none, none, none, none, none, none, none, none, none⟩ =>
      some name
  | _ => none

/-- Modelled from rattler PackageName::as_normalized: the lower-cased
package name. -/
def packageNameNormalized (s : String) : String :=
  String.mk (s.data.map Char.toLower)

/-- Modelled from rattler_build NormalizedKey as built from a package name:
the normalized name with dashes and dots replaced by underscores. -/
def normalizedKey (s : String) : String :=
  String.mk ((packageNameNormalized s).data.map (fun c => if c = '-' || c = '.' then '_' else c))

/-- The variant-value to version-expression rule shared by
apply_variant_and_convert (dependencies.rs lines 209 to 217) and
apply_variant (dependencies.rs lines 373 to 381): when every character of
the value is alphanumeric or a dot the value is prefixed with an equals
sign, otherwise the value is used verbatim. Rust char::is_alphanumeric is
modelled by Char.isAlphanum. -/
def variantVersionExpr (value : String) : String :=
  if value.toList.all (fun c => c.isAlphanum || c = '.') then "=" ++ value else value

inductive ConvertDependencyError where
  | missingName
  | variantSpecParseError (key : String) (e : String)
  | subpackageNotFound (name : String)
  | pinApplyError (e : String)
deriving DecidableEq, Repr

/-- From apply_variant_and_convert in dependencies.rs lines 198 to 228: if
the spec is variant-applicable and its normalized name is a key of the
variant table, build the version expression from the variant value, parse
it, and produce the named binary spec; a parse failure carries the
normalized name of the offending variant key. -/
def apply_variant_and_convert
    (parseNameless : String → Except String NamelessMatchSpec)
    (spec : MatchSpec) (variant : List (String × String)) :
    Except ConvertDependencyError (Option (String × BinaryPackageSpecV1)) :=
  match can_apply_variant spec with
  | none => Except.ok none
  | some name =>
    match imLookup variant (normalizedKey name) with
    | none => Except.ok none
    | some version =>
      match parseNameless (variantVersionExpr version) with
      | Except.error e =>
          Except.error (ConvertDependencyError.variantSpecParseError
            (packageNameNormalized name) e)
      | Except.ok nspec => Except.ok (some (name, convert_nameless_matchspec nspec))

/-- C5: the variant value is turned into a version expression by prefixing
an equals sign exactly when every character is alphanumeric or a dot, so
1.2.3 becomes the exact-match expression =1.2.3 while the range expression
with operators stays verbatim; the expression is then parsed, a parse
failure yielding a VariantSpecParseError carrying the offending variant
key, and a parse success yielding the converted named spec. -/
theorem variant_value_version_expr :
    variantVersionExpr "1.2.3" = "=1.2.3"
    ∧ variantVersionExpr ">=1.0,<2.0" = ">=1.0,<2.0"
    ∧ (∀ (parse : String → Except String NamelessMatchSpec) (spec : MatchSpec)
        (table : List (String × String)) (name value : String),
        can_apply_variant spec = some name →
        imLookup table (normalizedKey name) = some value →
        (∀ e, parse (variantVersionExpr value) = Except.error e →
            apply_variant_and_convert parse spec table =
              Except.error (ConvertDependencyError.variantSpecParseError
                (packageNameNormalized name) e))
        ∧ (∀ n, parse (variantVersionExpr value) = Except.ok n →
            apply_variant_and_convert parse spec table =
              Except.ok (some (name, convert_nameless_matchspec n)))) := by
  refine ⟨by decide, by decide, fun parse spec table name value hca hlook => ⟨?_, ?_⟩⟩
  · intro e hp
    simp only [apply_variant_and_convert, hca, hlook, hp]
  · intro n hp
    simp only [apply_variant_and_convert, hca, hlook, hp]

/-- A bare-name match spec on the package python. -/
def pyBareSpec : MatchSpec :=
  ⟨some "python", none, none, none, none, none, none, none, none, none, none, none, none⟩

/-- A parse function for witnesses: wraps the expression as an opaque
version constraint. -/
def wParse : String → Except String NamelessMatchSpec :=
  fun s => Except.ok ⟨some (VersionSpec.other s), none, none, none, none, none, none, none⟩

theorem variant_value_version_expr_witness :
    apply_variant_and_convert wParse pyBareSpec [("python", "3.9")] =
      Except.ok (some ("python",
        convert_nameless_matchspec
          ⟨some (VersionSpec.other "=3.9"), none, none, none, none, none, none, none⟩)) :=
  ((variant_value_version_expr.2.2 wParse pyBareSpec [("python", "3.9")] "python" "3.9"
      (by decide) (by decide)).2
    ⟨some (VersionSpec.other "=3.9"), none, none, none, none, none, none, none⟩ rfl)

/-! ### Pin resolution (apply_variant in dependencies.rs)

A pin value carries the target package name, its rendered arguments, and
the pin-application function of rattler_build (external to this
repository), modelled as a function from the resolved version and build
string of the sibling package to either a pinned match spec or a pin
error. -/

structure PackageIdentifier where
  version : String
  build_string : String

structure PinValue where
  name : String
  args : String
  apply : String → String → Except String MatchSpec

inductive Dependency where
  | spec (m : MatchSpec)
  | pinSubpackage (pin : PinValue)
  | pinCompatible (pin : PinValue)

structure PackageRecord where
  version : String
  build : String

inductive ResolveError where
  | variantSpecParseError (key : String) (e : String)
  | subpackageNotFound (name : String)
  | pinApplyError (e : String)
deriving DecidableEq, Repr

inductive DependencyInfo where
  | variant (spec : MatchSpec) (variantKey : String)
  | source (spec : MatchSpec)
  | pinSubpackage (spec : MatchSpec) (name : String) (args : String)
  | pinCompatible (spec : MatchSpec) (name : String) (args : String)

/-- Modelled from rattler MatchSpec::from_nameless: attach the given name
to the nameless constraint set. -/
def MatchSpec.from_nameless (n : NamelessMatchSpec) (name : Option String) : MatchSpec :=
  { name := name, version := n.version, build := n.build, build_number := n.build_number,
    file_name := n.file_name, extras := none, channel := n.channel, subdir := n.subdir,
    nspace := none, md5 := n.md5, sha256 := n.sha256, license := none, url := none }

/-- The per-dependency body of apply_variant in dependencies.rs lines 357
to 430: a plain spec is variant-substituted when build-time, version-free,
build-free and named with a variant key; a pin_subpackage reference is
looked up in the subpackage table and the pin is applied to the resolved
version and build string of the sibling; a pin_compatible reference does
the analogous lookup against the compatibility records. -/
def apply_variant_item
    (parseNameless : String → Except String NamelessMatchSpec)
    (variant : List (String × String))
    (subpackages : List (String × PackageIdentifier))
    (compatibility_specs : List (String × PackageRecord))
    (build_time : Bool) :
    Dependency → Except ResolveError DependencyInfo
  | .spec m =>
      if build_time && m.version.isNone && m.build.isNone then
        match m.name with
        | some name =>
          match imLookup variant (normalizedKey name) with
          | some version =>
            match parseNameless (variantVersionExpr version) with
            | Except.error e =>
                Except.error (ResolveError.variantSpecParseError
                  (packageNameNormalized name) e)
            | Except.ok nspec =>
                Except.ok (DependencyInfo.variant
                  (MatchSpec.from_nameless nspec (some name)) (packageNameNormalized name))
          | none => Except.ok (DependencyInfo.source m)
        | none => Except.ok (DependencyInfo.source m)
      else Except.ok (DependencyInfo.source m)
  | .pinSubpackage pin =>
      match imLookup subpackages pin.name with
      | none => Except.error (ResolveError.subpackageNotFound pin.name)
      | some subpackage =>
        match pin.apply subpackage.version subpackage.build_string with
        | Except.error e => Except.error (ResolveError.pinApplyError e)
        | Except.ok pinned =>
            Except.ok (DependencyInfo.pinSubpackage pinned
              (packageNameNormalized pin.name) pin.args)
  | .pinCompatible pin =>
      match imLookup compatibility_specs pin.name with
      | none => Except.error (ResolveError.subpackageNotFound pin.name)
      | some record =>
        match pin.apply record.version record.build with
        | Except.error e => Except.error (ResolveError.pinApplyError e)
        | Except.ok pinned =>
            Except.ok (DependencyInfo.pinCompatible pinned
              (packageNameNormalized pin.name) pin.args)

/-- apply_variant over a whole dependency list: resolution aborts on the
first error. -/
def apply_variant
    (parseNameless : String → Except String NamelessMatchSpec)
    (raw_specs : List Dependency)
    (variant : List (String × String))
    (subpackages : List (String × PackageIdentifier))
    (compatibility_specs : List (String × PackageRecord))
    (build_time : Bool) : Except ResolveError (List DependencyInfo) :=
  raw_specs.mapM (apply_variant_item parseNameless variant subpackages compatibility_specs
    build_time)

/-- C6: resolving a pin_subpackage reference whose target name is absent
from the subpackage table fails with SubpackageNotFound carrying that name;
when the name is present the pin arguments are applied to the resolved
version and build string of the sibling, a failing application yielding a
PinApplyError and a successful one yielding the pinned dependency. -/
theorem pin_subpackage_resolution
    (parse : String → Except String NamelessMatchSpec)
    (variant : List (String × String)) (subpackages : List (String × PackageIdentifier))
    (compat : List (String × PackageRecord)) (bt : Bool) (pin : PinValue) :
    (imLookup subpackages pin.name = none →
      apply_variant_item parse variant subpackages compat bt (Dependency.pinSubpackage pin) =
        Except.error (ResolveError.subpackageNotFound pin.name))
    ∧ (∀ sub, imLookup subpackages pin.name = some sub →
        (∀ e, pin.apply sub.version sub.build_string = Except.error e →
            apply_variant_item parse variant subpackages compat bt
                (Dependency.pinSubpackage pin) =
              Except.error (ResolveError.pinApplyError e))
        ∧ (∀ s, pin.apply sub.version sub.build_string = Except.ok s →
            apply_variant_item parse variant subpackages compat bt
                (Dependency.pinSubpackage pin) =
              Except.ok (DependencyInfo.pinSubpackage s
                (packageNameNormalized pin.name) pin.args))) := by
  refine ⟨fun hnone => ?_, fun sub hsub => ⟨fun e he => ?_, fun s hs => ?_⟩⟩
  · simp only [apply_variant_item, hnone]
  · simp only [apply_variant_item, hsub, he]
  · simp only [apply_variant_item, hsub, hs]

/-- A pin reference on the package mylib whose application always
succeeds. -/
def myLibPin : PinValue :=
  ⟨"mylib", "", fun _ _ => Except.ok pyBareSpec⟩

theorem pin_subpackage_resolution_witness :
    apply_variant_item wParse [] [] [] true (Dependency.pinSubpackage myLibPin) =
      Except.error (ResolveError.subpackageNotFound "mylib") :=
  (pin_subpackage_resolution wParse [] [] [] true myLibPin).1 rfl

/-! ### The conditional data model of recipe-stage0 (recipe.rs)

Value, Item, Conditional and ListOrItem mirror the generic Rust types; the
Rust bound T: ToString becomes a Lean ToString instance requirement on the
operations that render values. SerializableMatchSpec wraps the rendered
match spec string; the external rattler MatchSpec parser behind its FromStr
implementation is a function parameter of every operation that parses. -/

inductive Value (T : Type) where
  | concrete (v : T)
  | template (s : String)
deriving DecidableEq, Repr

structure ListOrItem (T : Type) where
  items : List T
deriving DecidableEq, Repr

/-- The Rust field named then is called thenClause because then is a Lean
keyword; the field named else is else_value as in the source. -/
structure Conditional (T : Type) where
  condition : String
  thenClause : ListOrItem T
  else_value : Option T
deriving DecidableEq, Repr

inductive Item (T : Type) where
  | value (v : Value T)
  | conditional (c : Conditional T)
deriving DecidableEq, Repr

abbrev ConditionalList (T : Type) := List (Item T)

structure SerializableMatchSpec where
  spec : String
deriving DecidableEq, Repr

instance : ToString SerializableMatchSpec :=
  ⟨SerializableMatchSpec.spec⟩

def Value.toStr {T : Type} [ToString T] : Value T → String
  | .concrete v => toString v
  | .template t => t

instance {T : Type} [ToString T] : ToString (Value T) :=
  ⟨Value.toStr⟩

/-- Display of ListOrItem, from recipe.rs lines 136 to 151: an empty list
renders as an empty pair of brackets, a single item renders bare, and a
longer list renders bracketed and comma separated. -/
def ListOrItem.toStr {T : Type} [ToString T] (l : ListOrItem T) : String :=
  match l.items with
  | [] => "[]"
  | [x] => toString x
  | xs => "[" ++ String.intercalate ", " (xs.map toString) ++ "]"

structure ConditionalRequirements where
  build : Option (ConditionalList SerializableMatchSpec)
  host : Option (ConditionalList SerializableMatchSpec)
  run : Option (ConditionalList SerializableMatchSpec)
  run_constraints : Option (ConditionalList SerializableMatchSpec)
deriving DecidableEq, Repr

structure Package where
  name : Value String
  version : Value String
deriving DecidableEq, Repr

structure UrlSource where
  url : Value String
  sha256 : Option (Value String)
deriving DecidableEq, Repr

structure PathSource where
  path : Value String
  sha256 : Option (Value String)
deriving DecidableEq, Repr

inductive Source where
  | url (s : UrlSource)
  | path (s : PathSource)
deriving DecidableEq, Repr

/-- The associated constructor Source::path from recipe.rs lines 458
to 463. -/
def Source.mkPath (path : String) (sha256 : Option String) : Source :=
  Source.path ⟨Value.concrete path, sha256.map Value.concrete⟩

structure Build where
  number : Option (Value Nat)
  script : List String
deriving DecidableEq, Repr

structure PackageContents where
  include_ : Option (ConditionalList String)
  files : Option (ConditionalList String)
deriving DecidableEq, Repr

structure Test where
  package_contents : Option PackageContents
deriving DecidableEq, Repr

structure About where
  homepage : Option (Value String)
  license : Option (Value String)
  license_file : Option (Value String)
  summary : Option (Value String)
  description : Option (Value String)
  documentation : Option (Value String)
  repository : Option (Value String)
deriving DecidableEq, Repr

structure Extra where
  recipe_maintainers : Option (ConditionalList String)
deriving DecidableEq, Repr

structure IntermediateRecipe where
  context : Option (List (String × Value String))
  package : Package
  source : Option Source
  build : Option Build
  requirements : Option ConditionalRequirements
  tests : Option (List Test)
  about : Option About
  extra : Option Extra
deriving DecidableEq, Repr

structure EvaluatedDependencies where
  build : Option (List SerializableMatchSpec)
  host : Option (List SerializableMatchSpec)
  run : Option (List SerializableMatchSpec)
  run_constraints : Option (List SerializableMatchSpec)
deriving DecidableEq, Repr

/-- The body of the filter_map closure in IntermediateRecipe::dependencies,
recipe.rs lines 307 to 328. A concrete value is kept; a template hits the
unimplemented panic, modelled as an error; a conditional is kept or skipped
by comparing the condition string against the literal "unix" (the platform
argument of the enclosing function is never consulted), rendering the then
clause or the else value and re-parsing it as a match spec, where a parse
failure models the expect panic. The result models panics as errors and a
skipped item as ok none. -/
def evalBuildItem (parse : String → Option SerializableMatchSpec) :
    Item SerializableMatchSpec → Except String (Option SerializableMatchSpec)
  | .value (.concrete spec) => Except.ok (some spec)
  | .value (.template t) =>
      Except.error ("Template evaluation not implemented yet: " ++ t)
  | .conditional cond =>
      if cond.condition = "unix" then
        match parse cond.thenClause.toStr with
        | some spec => Except.ok (some spec)
        | none => Except.error "Invalid MatchSpec in conditional"
      else
        match cond.else_value with
        | none => Except.ok none
        | some e =>
          match parse (toString e) with
          | some spec => Except.ok (some spec)
          | none => Except.error "Invalid MatchSpec in conditional else"

/-- The filter_map plus collect over the build list: items are evaluated
in order, the first panic aborts, kept values are concatenated. -/
def evalBuildItems (parse : String → Option SerializableMatchSpec) :
    List (Item SerializableMatchSpec) → Except String (List SerializableMatchSpec)
  | [] => Except.ok []
  | item :: rest =>
    match evalBuildItem parse item with
    | Except.error e => Except.error e
    | Except.ok v =>
      match evalBuildItems parse rest with
      | Except.error e => Except.error e
      | Except.ok vs =>
        match v with
        | some spec => Except.ok (spec :: vs)
        | none => Except.ok vs

/-- IntermediateRecipe::dependencies, recipe.rs lines 302 to 339: none when
the recipe has no requirements; otherwise only the build list is evaluated
and the host, run and run_constraints results are hard-coded to none. The
platform parameter is deliberately unused, as in the source, where it is
bound as an underscore-prefixed name. -/
def IntermediateRecipe.dependencies (parse : String → Option SerializableMatchSpec)
    (r : IntermediateRecipe) (_platform : Platform) :
    Option (Except String EvaluatedDependencies) :=
  match r.requirements with
  | none => none
  | some reqs =>
    some (match reqs.build with
      | none => Except.ok ⟨none, none, none, none⟩
      | some list =>
        match evalBuildItems parse list with
        | Except.error e => Except.error e
        | Except.ok specs => Except.ok ⟨some specs, none, none, none⟩)

/-- The parse function used for concrete evaluations: wraps the string as
the rendered spec, modelling a parser that accepts the inputs appearing in
the scenarios. -/
def smsParse : String → Option SerializableMatchSpec :=
  fun s => some ⟨s⟩

/-- The conditional requirement of the scenario: on unix the build needs
make, otherwise ninja. -/
def makeNinjaCond : Item SerializableMatchSpec :=
  Item.conditional ⟨"unix", ⟨[⟨"make"⟩]⟩, some ⟨"ninja"⟩⟩

def c1Recipe : IntermediateRecipe :=
  { context := none,
    package := ⟨Value.concrete "pkg", Value.concrete "1.0.0"⟩,
    source := none, build := none,
    requirements := some ⟨some [makeNinjaCond], none, none, none⟩,
    tests := none, about := none, extra := none }

/-- C1: evaluating the make-or-ninja conditional ignores the platform: the
condition string is compared with the literal "unix", so both Linux64 and
Win64 produce the then branch make, while the claim expects ninja on
Win64. -/
theorem dependencies_condition_ignores_platform :
    IntermediateRecipe.dependencies smsParse c1Recipe Platform.linux64 =
      some (Except.ok ⟨some [⟨"make"⟩], none, none, none⟩)
    ∧ IntermediateRecipe.dependencies smsParse c1Recipe Platform.win64 =
      some (Except.ok ⟨some [⟨"make"⟩], none, none, none⟩) :=
  ⟨rfl, rfl⟩

theorem evalBuildItems_template_error
    (parse : String → Option SerializableMatchSpec)
    (list : List (Item SerializableMatchSpec)) (t : String)
    (h : Item.value (Value.template t) ∈ list) :
    ∃ e, evalBuildItems parse list = Except.error e := by
  induction list with
  | nil => simp at h
  | cons item rest ih =>
      rcases List.mem_cons.mp h with h1 | h2
      · subst h1
        exact ⟨"Template evaluation not implemented yet: " ++ t, rfl⟩
      · cases hh : evalBuildItem parse item with
        | error e => exact ⟨e, by simp [evalBuildItems, hh]⟩
        | ok v =>
            obtain ⟨e, he⟩ := ih h2
            exact ⟨e, by simp [evalBuildItems, hh, he]⟩

/-- C7: a build list containing a template item never yields a silently
flattened result: evaluation aborts with an error (the unimplemented
template panic or an earlier panic) instead of producing dependencies. -/
theorem template_never_silently_flattened
    (parse : String → Option SerializableMatchSpec)
    (r : IntermediateRecipe) (p : Platform)
    (reqs : ConditionalRequirements) (list : List (Item SerializableMatchSpec)) (t : String)
    (hreq : r.requirements = some reqs) (hbuild : reqs.build = some list)
    (hmem : Item.value (Value.template t) ∈ list) :
    ∃ e, IntermediateRecipe.dependencies parse r p = some (Except.error e) := by
  obtain ⟨e, he⟩ := evalBuildItems_template_error parse list t hmem
  exact ⟨e, by simp [IntermediateRecipe.dependencies, hreq, hbuild, he]⟩

def tmplRecipe : IntermediateRecipe :=
  { context := none,
    package := ⟨Value.concrete "pkg", Value.concrete "1.0.0"⟩,
    source := none, build := none,
    requirements := some ⟨some [Item.value (Value.template "tmpl")], none, none, none⟩,
    tests := none, about := none, extra := none }

theorem template_never_silently_flattened_witness :
    ∃ e, IntermediateRecipe.dependencies smsParse tmplRecipe Platform.linux64 =
      some (Except.error e) :=
  template_never_silently_flattened smsParse tmplRecipe Platform.linux64
    ⟨some [Item.value (Value.template "tmpl")], none, none, none⟩
    [Item.value (Value.template "tmpl")] "tmpl" rfl rfl (List.mem_singleton.mpr rfl)

/-- C9: whenever a recipe has a requirements field the dependencies call
returns a result, and every successful result has its host, run and
run_constraints fields equal to none: only the build list is evaluated. -/
theorem dependencies_only_build
    (parse : String → Option SerializableMatchSpec)
    (r : IntermediateRecipe) (p : Platform) :
    (r.requirements.isSome → (IntermediateRecipe.dependencies parse r p).isSome)
    ∧ (∀ d, IntermediateRecipe.dependencies parse r p = some (Except.ok d) →
        d.host = none ∧ d.run = none ∧ d.run_constraints = none) := by
  constructor
  · intro hs
    cases hr : r.requirements with
    | none => rw [hr] at hs; simp at hs
    | some reqs => simp [IntermediateRecipe.dependencies, hr]
  · intro d hd
    cases hr : r.requirements with
    | none => simp [IntermediateRecipe.dependencies, hr] at hd
    | some reqs =>
        cases hb : reqs.build with
        | none =>
            simp [IntermediateRecipe.dependencies, hr, hb] at hd
            subst hd
            exact ⟨rfl, rfl, rfl⟩
        | some list =>
            cases he : evalBuildItems parse list with
            | error e => simp [IntermediateRecipe.dependencies, hr, hb, he] at hd
            | ok specs =>
                simp [IntermediateRecipe.dependencies, hr, hb, he] at hd
                subst hd
                exact ⟨rfl, rfl, rfl⟩

def c9Recipe : IntermediateRecipe :=
  { context := none,
    package := ⟨Value.concrete "pkg", Value.concrete "1.0.0"⟩,
    source := none, build := none,
    requirements := some ⟨some [Item.value (Value.concrete ⟨"cmake"⟩)], none, none, none⟩,
    tests := none, about := none, extra := none }

theorem dependencies_only_build_witness :
    c9Recipe.requirements.isSome = true
    ∧ (IntermediateRecipe.dependencies smsParse c9Recipe Platform.osxArm64).isSome = true
    ∧ (⟨some [⟨"cmake"⟩], none, none, none⟩ : EvaluatedDependencies).host = none
    ∧ (⟨some [⟨"cmake"⟩], none, none, none⟩ : EvaluatedDependencies).run = none
    ∧ (⟨some [⟨"cmake"⟩], none, none, none⟩ : EvaluatedDependencies).run_constraints = none := by
  refine ⟨rfl, (dependencies_only_build smsParse c9Recipe Platform.osxArm64).1 rfl, ?_⟩
  have h := (dependencies_only_build smsParse c9Recipe Platform.osxArm64).2
    ⟨some [⟨"cmake"⟩], none, none, none⟩ rfl
  exact ⟨h.1, h.2.1, h.2.2⟩

/-! ### Building an intermediate recipe from a project model (recipe.rs)

Version is the rattler version type, modelled as its rendered string. The
iteration order of the Rust hash map from target keys to requirements is
abstracted as the list order default-first. -/

structure Version where
  str : String
deriving DecidableEq, Repr

instance : ToString Version :=
  ⟨Version.str⟩

def Version.fromStr (s : String) : Version :=
  ⟨s⟩

structure ProjectModelV1 where
  name : String
  version : Option Version
  targets : Option TargetsV1
  description : Option String
  license : Option String
  license_file : Option String
  homepage : Option String
  repository : Option String
  documentation : Option String
  authors : Option (List String)
  readme : Option String
deriving DecidableEq, Repr

/-- From package_specs_to_match_spec in recipe.rs lines 371 to 386: a
binary spec becomes the match spec parsed from the bare package name (the
unwrap panic on a parse failure is modelled as an error) and a source spec
hits the unimplemented panic. -/
def package_specs_to_match_spec (parse : String → Option SerializableMatchSpec) :
    List (String × PackageSpecV1) → Except String (List SerializableMatchSpec)
  | [] => Except.ok []
  | (name, spec) :: rest =>
    match spec with
    | .binary _ =>
      match parse name with
      | none => Except.error "invalid match spec for package name"
      | some m =>
        match package_specs_to_match_spec parse rest with
        | Except.error e => Except.error e
        | Except.ok ms => Except.ok (m :: ms)
    | .source _ => Except.error "Source dependencies not implemented yet"

structure Requirements where
  build : Option (List (Value SerializableMatchSpec))
  host : Option (List (Value SerializableMatchSpec))
  run : Option (List (Value SerializableMatchSpec))
  run_constraints : Option (List (Value SerializableMatchSpec))
deriving DecidableEq, Repr

/-- One optional dependency map of a target turned into concrete values,
the map combinator inside target_spec_to_requirements. -/
def specsToValues (parse : String → Option SerializableMatchSpec) :
    Option (List (String × PackageSpecV1)) →
      Except String (Option (List (Value SerializableMatchSpec)))
  | none => Except.ok none
  | some deps =>
    match package_specs_to_match_spec parse deps with
    | Except.error e => Except.error e
    | Except.ok ms => Except.ok (some (ms.map Value.concrete))

/-- From target_spec_to_requirements in recipe.rs lines 407 to 432. -/
def target_spec_to_requirements (parse : String → Option SerializableMatchSpec)
    (target : TargetV1) : Except String Requirements :=
  match specsToValues parse target.build_dependencies with
  | Except.error e => Except.error e
  | Except.ok b =>
    match specsToValues parse target.host_dependencies with
    | Except.error e => Except.error e
    | Except.ok h =>
      match specsToValues parse target.run_dependencies with
      | Except.error e => Except.error e
      | Except.ok r => Except.ok ⟨b, h, r, none⟩

/-- The target key of recipe.rs lines 484 to 488 (the Rust enum named
Target). -/
inductive Target where
  | dflt
  | specific (s : String)
deriving DecidableEq, Repr

structure TargetRequirements where
  target : List (Target × Requirements)
deriving DecidableEq, Repr

/-- Modelled from the Display rendering of TargetSelectorV1 in
pixi_build_types, used by selector.to_string() in
into_target_requirements. -/
def TargetSelectorV1.toStr : TargetSelectorV1 → String
  | .platform p => p
  | .linux => "linux"
  | .unix => "unix"
  | .win => "win"
  | .macOs => "osx"

/-- From into_target_requirements in recipe.rs lines 388 to 405: the
default target (when present) keyed by the default key, then every
selector-bound target keyed by the rendered selector. -/
def into_target_requirements (parse : String → Option SerializableMatchSpec)
    (targets : TargetsV1) : Except String TargetRequirements :=
  match (match targets.default_target with
         | some dt =>
             match target_spec_to_requirements parse dt with
             | Except.error e => Except.error e
             | Except.ok r => Except.ok [(Target.dflt, r)]
         | none => Except.ok []) with
  | Except.error e => Except.error e
  | Except.ok defaults =>
    match (targets.targets.getD []).mapM
        (fun st =>
          match target_spec_to_requirements parse st.2 with
          | Except.error e => Except.error e
          | Except.ok r => Except.ok (Target.specific st.1.toStr, r)) with
    | Except.error e => Except.error e
    | Except.ok specifics => Except.ok ⟨defaults ++ specifics⟩

/-- From into_conditional_list in recipe.rs lines 631 to 663: values of the
default target are emitted directly; values of a specific target are
wrapped in a single conditional on the rendered selector, unwrapping every
value to its concrete payload (the unwrap panic on a template is modelled
as an error). -/
def into_conditional_list (target : Target) (values : List (Value SerializableMatchSpec)) :
    Except String (ConditionalList SerializableMatchSpec) :=
  match target with
  | .dflt => Except.ok (values.map Item.value)
  | .specific cond =>
    match values.mapM (fun v => match v with
      | Value.concrete c => some c
      | Value.template _ => none) with
    | none => Except.error "unwrap of a template value in into_conditional_list"
    | some thens => Except.ok [Item.conditional ⟨cond, ⟨thens⟩, none⟩]

def gatherField (target : Target) :
    Option (List (Value SerializableMatchSpec)) →
      Except String (ConditionalList SerializableMatchSpec)
  | none => Except.ok []
  | some deps => into_conditional_list target deps

/-- The accumulation loop of into_conditional_requirements in recipe.rs
lines 667 to 696, emitting the four item lists in target order. -/
def gatherConditional :
    List (Target × Requirements) →
      Except String (ConditionalList SerializableMatchSpec ×
        ConditionalList SerializableMatchSpec ×
        ConditionalList SerializableMatchSpec ×
        ConditionalList SerializableMatchSpec)
  | [] => Except.ok ([], [], [], [])
  | (t, reqs) :: rest =>
    match gatherField t reqs.build with
    | Except.error e => Except.error e
    | Except.ok b =>
      match gatherField t reqs.host with
      | Except.error e => Except.error e
      | Except.ok h =>
        match gatherField t reqs.run with
        | Except.error e => Except.error e
        | Except.ok r =>
          match gatherField t reqs.run_constraints with
          | Except.error e => Except.error e
          | Except.ok rc =>
            match gatherConditional rest with
            | Except.error e => Except.error e
            | Except.ok (b2, h2, r2, rc2) =>
                Except.ok (b ++ b2, h ++ h2, r ++ r2, rc ++ rc2)

/-- From TargetRequirements::into_conditional_requirements in recipe.rs
lines 667 to 721: empty item lists become none. -/
def TargetRequirements.into_conditional_requirements (tr : TargetRequirements) :
    Except String ConditionalRequirements :=
  match gatherConditional tr.target with
  | Except.error e => Except.error e
  | Except.ok (b, h, r, rc) =>
      Except.ok ⟨if b.isEmpty then none else some b,
        if h.isEmpty then none else some h,
        if r.isEmpty then none else some r,
        if rc.isEmpty then none else some rc⟩

/-- From IntermediateRecipe::from_model in recipe.rs lines 341 to 368: the
package takes the model name as a concrete value and the model version,
defaulting to the parsed version 0.1.0 when the model has none; the source
is the manifest root as a path source; the requirements come from the
target conversion pipeline. -/
def IntermediateRecipe.from_model (parse : String → Option SerializableMatchSpec)
    (model : ProjectModelV1) (manifest_root : String) :
    Except String IntermediateRecipe :=
  match into_target_requirements parse (model.targets.getD ⟨none, none⟩) with
  | Except.error e => Except.error e
  | Except.ok ctr =>
    match ctr.into_conditional_requirements with
    | Except.error e => Except.error e
    | Except.ok requirements =>
      Except.ok
        { context := none,
          package :=
            ⟨Value.concrete model.name,
              Value.concrete (toString (model.version.getD (Version.fromStr "0.1.0")))⟩,
          source := some (Source.mkPath manifest_root none),
          build := none,
          requirements := some requirements,
          tests := none, about := none, extra := none }

/-- C10: building a recipe from a model without a version silently defaults
the package version to the concrete string 0.1.0, and the package name is
the model name as a concrete value. -/
theorem from_model_version_default
    (parse : String → Option SerializableMatchSpec)
    (model : ProjectModelV1) (root : String)
    (hv : model.version = none) :
    ∀ r, IntermediateRecipe.from_model parse model root = Except.ok r →
      r.package = ⟨Value.concrete model.name, Value.concrete "0.1.0"⟩ := by
  intro r hr
  cases h1 : into_target_requirements parse (model.targets.getD ⟨none, none⟩) with
  | error e => simp [IntermediateRecipe.from_model, h1] at hr
  | ok ctr =>
      cases h2 : ctr.into_conditional_requirements with
      | error e => simp [IntermediateRecipe.from_model, h1, h2] at hr
      | ok reqs =>
          simp [IntermediateRecipe.from_model, h1, h2, hv] at hr
          subst hr
          rfl

def c10Model : ProjectModelV1 :=
  ⟨"example-project", none, none, none, none, none, none, none, none, none, none⟩

def c10Recipe : IntermediateRecipe :=
  { context := none,
    package := ⟨Value.concrete "example-project", Value.concrete "0.1.0"⟩,
    source := some (Source.mkPath "/path/to/manifest" none),
    build := none,
    requirements := some ⟨none, none, none, none⟩,
    tests := none, about := none, extra := none }

theorem from_model_version_default_witness :
    c10Model.version = none
    ∧ IntermediateRecipe.from_model smsParse c10Model "/path/to/manifest" =
        Except.ok c10Recipe
    ∧ c10Recipe.package = ⟨Value.concrete "example-project", Value.concrete "0.1.0"⟩ :=
  ⟨rfl, rfl,
    from_model_version_default smsParse c10Model "/path/to/manifest" rfl c10Recipe rfl⟩

/-! ### Serialization of the conditional structures (recipe.rs)

A structured-document value model: strings, sequences, string-keyed
mappings and null. The encoders below follow the serde derivations of
recipe.rs at T = SerializableMatchSpec: Value and Item are untagged
unions, ListOrItem serializes a single element bare (recipe.rs lines 61
to 74) and deserializes a scalar, a sequence or a mapping (lines 76 to
134), Conditional renames its fields to if and else, optional fields
serialize as null and deserialize from null or absence, and
SerializableMatchSpec serializes as its rendered string and deserializes
by parsing (matchspec.rs), the parser being the explicit function
parameter. Untagged deserialization tries the variants in declaration
order: Concrete before Template, Value before Conditional. -/

inductive Yaml where
  | str (s : String)
  | seq (l : List Yaml)
  | map (l : List (String × Yaml))
  | null

def serSMS (v : SerializableMatchSpec) : Yaml :=
  Yaml.str v.spec

def serValue : Value SerializableMatchSpec → Yaml
  | .concrete v => serSMS v
  | .template t => Yaml.str t

def serListOrItem (l : ListOrItem SerializableMatchSpec) : Yaml :=
  match l.items with
  | [x] => serSMS x
  | xs => Yaml.seq (xs.map serSMS)

def serConditional (c : Conditional SerializableMatchSpec) : Yaml :=
  Yaml.map [("if", Yaml.str c.condition), ("then", serListOrItem c.thenClause),
    ("else", match c.else_value with
      | some v => serSMS v
      | none => Yaml.null)]

def serItem : Item SerializableMatchSpec → Yaml
  | .value v => serValue v
  | .conditional c => serConditional c

def serCondList (l : ConditionalList SerializableMatchSpec) : Yaml :=
  Yaml.seq (l.map serItem)

def serOptList : Option (ConditionalList SerializableMatchSpec) → Yaml
  | none => Yaml.null
  | some l => serCondList l

def serCondReqs (cr : ConditionalRequirements) : Yaml :=
  Yaml.map [("build", serOptList cr.build), ("host", serOptList cr.host),
    ("run", serOptList cr.run), ("run_constraints", serOptList cr.run_constraints)]

def deSMS (parse : String → Option SerializableMatchSpec) : Yaml → Option SerializableMatchSpec
  | .str s => parse s
  | _ => none

def deValue (parse : String → Option SerializableMatchSpec) (y : Yaml) :
    Option (Value SerializableMatchSpec) :=
  match deSMS parse y with
  | some v => some (Value.concrete v)
  | none =>
    match y with
    | .str t => some (Value.template t)
    | _ => none

def deSMSList (parse : String → Option SerializableMatchSpec) :
    List Yaml → Option (List SerializableMatchSpec)
  | [] => some []
  | y :: rest =>
    match deSMS parse y with
    | none => none
    | some v =>
      match deSMSList parse rest with
      | none => none
      | some vs => some (v :: vs)

def deListOrItem (parse : String → Option SerializableMatchSpec) :
    Yaml → Option (ListOrItem SerializableMatchSpec)
  | .seq l => (deSMSList parse l).map ListOrItem.mk
  | .str s => (parse s).map (fun x => ⟨[x]⟩)
  | _ => none

def deOptSMS (parse : String → Option SerializableMatchSpec) :
    Yaml → Option (Option SerializableMatchSpec)
  | .null => some none
  | y => (deSMS parse y).map some

def deConditional (parse : String → Option SerializableMatchSpec) :
    Yaml → Option (Conditional SerializableMatchSpec)
  | .map fields =>
    match imLookup fields "if", imLookup fields "then" with
    | some (.str cond), some ythen =>
      (match deListOrItem parse ythen with
      | none => none
      | some thens =>
        match imLookup fields "else" with
        | none => some ⟨cond, thens, none⟩
        | some yelse =>
          match deOptSMS parse yelse with
          | none => none
          | some ev => some ⟨cond, thens, ev⟩)
    | _, _ => none
  | _ => none

def deItem (parse : String → Option SerializableMatchSpec) (y : Yaml) :
    Option (Item SerializableMatchSpec) :=
  match deValue parse y with
  | some v => some (Item.value v)
  | none =>
    match deConditional parse y with
    | some c => some (Item.conditional c)
    | none => none

def deItemList (parse : String → Option SerializableMatchSpec) :
    List Yaml → Option (ConditionalList SerializableMatchSpec)
  | [] => some []
  | y :: rest =>
    match deItem parse y with
    | none => none
    | some item =>
      match deItemList parse rest with
      | none => none
      | some items => some (item :: items)

def deCondList (parse : String → Option SerializableMatchSpec) :
    Yaml → Option (ConditionalList SerializableMatchSpec)
  | .seq l => deItemList parse l
  | _ => none

def deOptList (parse : String → Option SerializableMatchSpec) :
    Yaml → Option (Option (ConditionalList SerializableMatchSpec))
  | .null => some none
  | y => (deCondList parse y).map some

def deReqField (parse : String → Option SerializableMatchSpec)
    (fields : List (String × Yaml)) (name : String) :
    Option (Option (ConditionalList SerializableMatchSpec)) :=
  match imLookup fields name with
  | none => some none
  | some y => deOptList parse y

def deCondReqs (parse : String → Option SerializableMatchSpec) :
    Yaml → Option ConditionalRequirements
  | .map fields =>
    match deReqField parse fields "build", deReqField parse fields "host",
        deReqField parse fields "run", deReqField parse fields "run_constraints" with
    | some b, some h, some r, some rc => some ⟨b, h, r, rc⟩
    | _, _, _, _ => none
  | _ => none

/-! Round-trip side conditions: the parser must invert the rendering on
every value of the structure, and every item must be concrete (a template
that happens to parse as a match spec would deserialize as a concrete
value, precisely because the union is untagged). -/

def smsRT (parse : String → Option SerializableMatchSpec) (v : SerializableMatchSpec) : Bool :=
  decide (parse v.spec = some v)

def valueRT (parse : String → Option SerializableMatchSpec) : Value SerializableMatchSpec → Bool
  | .concrete v => smsRT parse v
  | .template _ => false

def itemRT (parse : String → Option SerializableMatchSpec) : Item SerializableMatchSpec → Bool
  | .value v => valueRT parse v
  | .conditional c =>
      c.thenClause.items.all (smsRT parse) &&
        (match c.else_value with
         | none => true
         | some v => smsRT parse v)

def optListRT (parse : String → Option SerializableMatchSpec) :
    Option (ConditionalList SerializableMatchSpec) → Bool
  | none => true
  | some l => l.all (itemRT parse)

def crRT (parse : String → Option SerializableMatchSpec) (cr : ConditionalRequirements) : Bool :=
  optListRT parse cr.build && optListRT parse cr.host && optListRT parse cr.run &&
    optListRT parse cr.run_constraints

theorem deSMS_serSMS (parse : String → Option SerializableMatchSpec)
    (v : SerializableMatchSpec) (h : smsRT parse v = true) :
    deSMS parse (serSMS v) = some v := by
  simp only [smsRT, decide_eq_true_eq] at h
  simp [deSMS, serSMS, h]

theorem deSMSList_ser (parse : String → Option SerializableMatchSpec)
    (xs : List SerializableMatchSpec) (h : xs.all (smsRT parse) = true) :
    deSMSList parse (xs.map serSMS) = some xs := by
  induction xs with
  | nil => rfl
  | cons x rest ih =>
      simp only [List.all_cons, Bool.and_eq_true] at h
      simp [deSMSList, deSMS_serSMS parse x h.1, ih h.2]

theorem deListOrItem_ser (parse : String → Option SerializableMatchSpec)
    (l : ListOrItem SerializableMatchSpec) (h : l.items.all (smsRT parse) = true) :
    deListOrItem parse (serListOrItem l) = some l := by
  obtain ⟨items⟩ := l
  cases items with
  | nil => rfl
  | cons x rest =>
      cases rest with
      | nil =>
          simp only [List.all_cons, List.all_nil, Bool.and_true] at h
          have hx : parse x.spec = some x := by simpa [smsRT] using h
          simp [serListOrItem, deListOrItem, serSMS, hx]
      | cons y rest2 =>
          have hd := deSMSList_ser parse (x :: y :: rest2) h
          simp only [List.map_cons] at hd
          simp [serListOrItem, deListOrItem, hd]

theorem deValue_serValue (parse : String → Option SerializableMatchSpec)
    (v : Value SerializableMatchSpec) (h : valueRT parse v = true) :
    deValue parse (serValue v) = some v := by
  cases v with
  | concrete v =>
      have hx : parse v.spec = some v := by simpa [valueRT, smsRT] using h
      simp [serValue, deValue, deSMS, serSMS, hx]
  | template t => simp [valueRT] at h

theorem deConditional_ser (parse : String → Option SerializableMatchSpec)
    (c : Conditional SerializableMatchSpec)
    (h : itemRT parse (Item.conditional c) = true) :
    deConditional parse (serConditional c) = some c := by
  obtain ⟨cond, thens, ev⟩ := c
  simp only [itemRT, Bool.and_eq_true] at h
  obtain ⟨hthen, helse⟩ := h
  have h1 := deListOrItem_ser parse thens hthen
  cases ev with
  | none => simp [serConditional, deConditional, imLookup, h1, deOptSMS]
  | some v =>
      have hv : parse v.spec = some v := by simpa [smsRT] using helse
      simp [serConditional, deConditional, imLookup, h1, deOptSMS, deSMS, serSMS, hv]

theorem deItem_ser (parse : String → Option SerializableMatchSpec)
    (item : Item SerializableMatchSpec) (h : itemRT parse item = true) :
    deItem parse (serItem item) = some item := by
  cases item with
  | value v =>
      have hv := deValue_serValue parse v (by simpa [itemRT] using h)
      simp [serItem, deItem, hv]
  | conditional c =>
      have hc := deConditional_ser parse c h
      have hv : deValue parse (serConditional c) = none := by
        simp [deValue, deSMS, serConditional]
      simp [serItem, deItem, hv, hc]

theorem deCondList_ser (parse : String → Option SerializableMatchSpec)
    (l : ConditionalList SerializableMatchSpec) (h : l.all (itemRT parse) = true) :
    deCondList parse (serCondList l) = some l := by
  induction l with
  | nil => rfl
  | cons item rest ih =>
      simp only [List.all_cons, Bool.and_eq_true] at h
      have ih2 : deItemList parse (rest.map serItem) = some rest := by
        simpa [serCondList, deCondList] using ih h.2
      simp [serCondList, deCondList, deItemList, deItem_ser parse item h.1, ih2]

theorem deOptList_ser (parse : String → Option SerializableMatchSpec)
    (o : Option (ConditionalList SerializableMatchSpec)) (h : optListRT parse o = true) :
    deOptList parse (serOptList o) = some o := by
  cases o with
  | none => rfl
  | some l =>
      have hl := deCondList_ser parse l h
      cases l with
      | nil => rfl
      | cons item rest =>
          simp only [serOptList, serCondList, List.map_cons] at hl ⊢
          simp [deOptList, hl]

/-- C8: serializing a ConditionalRequirements whose items are concrete and
whose rendered values re-parse to themselves, then deserializing, yields
the original structure back, whether the then lists have one or many
elements; a single-element then serializes to the bare scalar rather than
a one-element sequence, and both Value variants serialize untagged to the
plain string. -/
theorem conditional_requirements_roundtrip
    (parse : String → Option SerializableMatchSpec)
    (cr : ConditionalRequirements) (h : crRT parse cr = true) :
    deCondReqs parse (serCondReqs cr) = some cr
    ∧ (∀ x : SerializableMatchSpec, serListOrItem ⟨[x]⟩ = Yaml.str x.spec)
    ∧ (∀ s : String, serValue (Value.template s) = Yaml.str s)
    ∧ (∀ v : SerializableMatchSpec, serValue (Value.concrete v) = Yaml.str v.spec) := by
  refine ⟨?_, fun x => rfl, fun s => rfl, fun v => rfl⟩
  obtain ⟨b, ho, r, rc⟩ := cr
  simp only [crRT, Bool.and_eq_true] at h
  obtain ⟨⟨⟨hb, hh⟩, hr⟩, hrc⟩ := h
  simp [serCondReqs, deCondReqs, deReqField, imLookup,
    deOptList_ser parse b hb, deOptList_ser parse ho hh,
    deOptList_ser parse r hr, deOptList_ser parse rc hrc]

/-- The round-trip scenario: a build list with the make-or-ninja
conditional (single-element then) and a host list whose conditional has a
two-element then list. -/
def c8Reqs : ConditionalRequirements :=
  ⟨some [Item.conditional ⟨"unix", ⟨[⟨"make"⟩]⟩, some ⟨"ninja"⟩⟩],
    some [Item.conditional ⟨"unix", ⟨[⟨"make"⟩, ⟨"cmake"⟩]⟩, some ⟨"ninja"⟩⟩],
    none, none⟩

theorem conditional_requirements_roundtrip_witness :
    crRT smsParse c8Reqs = true
    ∧ deCondReqs smsParse (serCondReqs c8Reqs) = some c8Reqs :=
  ⟨rfl, (conditional_requirements_roundtrip smsParse c8Reqs rfl).1⟩

end PixiBuild
